import Mathlib

/-!
Verification of the sqlite schema-introspection library (`src/index.ts`).

The embedding models the TypeScript runtime semantics of the module:

* `Value` is the SQL value type delivered by the storage (`string | number |
  null`); JavaScript numbers are modelled as integers, which covers every
  catalog payload the pragmas produce (integer flags, ordinals and text).
* `Row` is a record of named values (`Record<string, Value>`), modelled as an
  association list; a missing field reads as `Value.null`.
* `Storage` is the injected connection capability: one function from a
  parameterized query to a list of rows.
* `getStructure` is a direct translation of the exported function; the three
  inline arrow functions of the source are named `tableOfRow`, `columnOfRow`
  and `indexOfRow` here, with the same bodies.  The TypeScript `!!` boolean
  coercions become `truthy`.
-/

namespace SqliteStructure

/-- A SQL value as delivered by the storage: `string | number | null`.
Numbers are modelled as integers (the catalog's flag and ordinal payloads are
integral). -/
inductive Value : Type where
  | str : String → Value
  | num : Int → Value
  | null : Value
deriving DecidableEq, Repr

/-- A result row: `Record<string, Value>`, modelled as an association list. -/
abbrev Row : Type := List (String × Value)

/-- Field access on a row.  A field that is absent reads as `Value.null`
(JavaScript `undefined` and `null` coincide in this model; both are falsy and
neither occurs for the fields the queries select). -/
def Row.get (r : Row) (key : String) : Value :=
  match List.find? (fun p => p.1 == key) r with
  | some p => p.2
  | none => Value.null

/-- A parameterized query: the `sql` text with `?` placeholders and the bound
`values`, exactly the shape produced by the `sql` template tag. -/
structure Query : Type where
  sql : String
  values : List Value
deriving DecidableEq, Repr

/-- The connection capability: execute a query, produce rows (`Storage`). -/
abbrev Storage : Type := Query → List Row

/-- `exec` from the source: run the query on the storage.  The TypeScript
`as Array<A>` cast is a no-op at runtime, so rows stay untyped rows here. -/
def exec (storage : Storage) (query : Query) : List Row :=
  storage query

/-- JavaScript truthiness of a `Value`, as applied by the `!!` coercions in
the source: `0`, `null` and the empty string are falsy, everything else is
truthy. -/
def truthy : Value → Bool
  | Value.str s => s ≠ ""
  | Value.num n => n ≠ 0
  | Value.null => false

/-- The name/schema pair bound into the per-table and per-index queries. -/
structure QueryArg : Type where
  name : Value
  schema : Value
deriving DecidableEq, Repr

/-- Text of the `pragma_table_list` query (template joined at `?`). -/
def tableListSql : String :=
  "\n    select \"schema\", \"name\", \"type\", \"wr\", \"strict\"\n    from pragma_table_list()\n    where \"schema\" not like \x27temp\x27 and \"name\" not like \x27sqlite_%\x27\n    order by \"schema\", \"name\"\n  "

/-- Text of the `pragma_table_info` query (template joined at `?`). -/
def tableInfoSql : String :=
  "\n    select \"name\", \"type\", \"notnull\", \"dflt_value\", \"pk\"\n    from pragma_table_info( ?, ? )\n    order by \"name\"\n  "

/-- Text of the `pragma_index_list` query (template joined at `?`). -/
def indexListSql : String :=
  "\n    select \"name\", \"unique\", \"origin\", \"partial\"\n    from pragma_index_list( ?, ? )\n    order by \"name\"\n  "

/-- Text of the `pragma_index_info` query (template joined at `?`). -/
def indexInfoSql : String :=
  "\n    select \"name\" from\n    pragma_index_info( ?, ? )\n    order by \"seqno\"\n  "

/-- `pragmaTableListQuery`: constant query, no bound values. -/
def pragmaTableListQuery : Query :=
  { sql := tableListSql, values := [] }

/-- `pragmaTableInfoQuery(table)`: fixed sql, name and schema bound. -/
def pragmaTableInfoQuery (table : QueryArg) : Query :=
  { sql := tableInfoSql, values := [table.name, table.schema] }

/-- `pragmaIndexListQuery(table)`: fixed sql, name and schema bound. -/
def pragmaIndexListQuery (table : QueryArg) : Query :=
  { sql := indexListSql, values := [table.name, table.schema] }

/-- `pragmaIndexInfoQuery(index)`: fixed sql, name and schema bound. -/
def pragmaIndexInfoQuery (index : QueryArg) : Query :=
  { sql := indexInfoSql, values := [index.name, index.schema] }

/-- Assembled column record (`Column`).  At runtime the fields hold whatever
values the row carried, so the uncoerced fields have type `Value`. -/
structure Column : Type where
  name : Value
  type : Value
  notNull : Bool
  defaultValue : Value
  primaryKey : Value
deriving DecidableEq, Repr

/-- Assembled index record (`Index`).  The `columns` are the raw rows of the
index-info query, passed through unchanged by the source.  The source field
spelled like the SQL keyword for partial indexes is named `isPartial` here. -/
structure Index : Type where
  name : Value
  unique : Bool
  origin : Value
  isPartial : Bool
  columns : List Row
deriving DecidableEq, Repr

/-- Assembled table record (`Table`). -/
structure Table : Type where
  schema : Value
  name : Value
  type : Value
  withoutRowid : Bool
  strict : Bool
  columns : List Column
  indexes : List Index
deriving DecidableEq, Repr

/-- `Structure`: the root value, a sequence of tables. -/
abbrev Structure : Type := List Table

/-- The column-row mapper: the arrow function inside the `columns` binding of
`getStructure`. -/
def columnOfRow (column : Row) : Column :=
  { name := Row.get column "name"
  , type := Row.get column "type"
  , notNull := truthy (Row.get column "notnull")
  , defaultValue := Row.get column "dflt_value"
  , primaryKey := Row.get column "pk" }

/-- The index-row mapper: the arrow function inside the `indexes` binding of
`getStructure`; it closes over the storage and the table's schema. -/
def indexOfRow (storage : Storage) (schema : Value) (index : Row) : Index :=
  { name := Row.get index "name"
  , unique := truthy (Row.get index "unique")
  , origin := Row.get index "origin"
  , isPartial := truthy (Row.get index "partial")
  , columns := exec storage (pragmaIndexInfoQuery { name := Row.get index "name", schema := schema }) }

/-- The table-row mapper: the outer arrow function of `getStructure`.  As in
the source, the `indexes` binding is evaluated before the `columns` binding. -/
def tableOfRow (storage : Storage) (table : Row) : Table :=
  let schema := Row.get table "schema"
  let indexes : List Index :=
    (exec storage (pragmaIndexListQuery { name := Row.get table "name", schema := schema })).map
      (indexOfRow storage schema)
  let columns : List Column :=
    (exec storage (pragmaTableInfoQuery { name := Row.get table "name", schema := schema })).map
      columnOfRow
  { schema := schema
  , name := Row.get table "name"
  , type := Row.get table "type"
  , withoutRowid := truthy (Row.get table "wr")
  , strict := truthy (Row.get table "strict")
  , columns := columns
  , indexes := indexes }

/-- `getStructure`: the exported describe operation. -/
def getStructure (storage : Storage) : Structure :=
  (exec storage pragmaTableListQuery).map (tableOfRow storage)

/-!
Ordering of SQL values, used to state the `order by` contracts of the catalog
queries.  SQLite's BINARY collation compares text bytewise; on the identifier
strings involved here this agrees with the codepoint order below.
-/

/-- Lexicographic comparison of character lists. -/
def charListLe : List Char → List Char → Bool
  | [], _ => true
  | _ :: _, [] => false
  | a :: as, b :: bs => a < b || (a == b && charListLe as bs)

/-- String comparison via `charListLe`. -/
def strLe (s t : String) : Bool :=
  charListLe s.toList t.toList

/-- Modelled from the spec: SQLite's cross-type value ordering (null before
numbers before text), restricted to the `Value` type, as applied by the
`order by` clauses of the catalog queries. -/
def Value.le : Value → Value → Bool
  | Value.null, _ => true
  | Value.num _, Value.null => false
  | Value.num m, Value.num n => m ≤ n
  | Value.num _, Value.str _ => true
  | Value.str _, Value.null => false
  | Value.str _, Value.num _ => false
  | Value.str s, Value.str t => strLe s t

/-- A list is sorted ascending under the key extraction `key`: every adjacent
pair is ordered by `Value.le`. -/
def sortedBy (key : α → Value) : List α → Bool
  | [] => true
  | [_] => true
  | a :: b :: rest => Value.le (key a) (key b) && sortedBy key (b :: rest)

/-!
Model of the `where` clause of the table-list query.  The two `like` patterns
written in the query text have fixed shapes ("temp" has no wildcard,
"sqlite_%" is six literal characters, a single-character wildcard and a
trailing multi-character wildcard), so their SQLite matching semantics are
modelled directly, pattern by pattern.
-/

/-- Modelled from the spec: SQLite `like \x27temp\x27` matching — the pattern has no
wildcard, so it is ASCII-case-insensitive equality with "temp". -/
def likeTemp (s : String) : Bool :=
  s.toList.map Char.toLower == "temp".toList

/-- Modelled from the spec: SQLite `like \x27sqlite_%\x27` matching — six literal
characters matched case-insensitively, then one arbitrary character for the
single-character wildcard, then anything for the trailing wildcard. -/
def likeSqlite (s : String) : Bool :=
  match s.toList with
  | c1 :: c2 :: c3 :: c4 :: c5 :: c6 :: _ :: _ =>
    (c1.toLower == 's') && (c2.toLower == 'q') && (c3.toLower == 'l') &&
    (c4.toLower == 'i') && (c5.toLower == 't') && (c6.toLower == 'e')
  | _ => false

/-- Modelled from the spec: the engine's evaluation of the table-list query's
`where` clause on a candidate row.  `pragma_table_list` only ever reports text
schema and object names; a row whose schema or name is not text cannot pass
(for a null field the SQL comparison is unknown, which a `where` clause
rejects). -/
def tableListWherePasses (r : Row) : Bool :=
  match Row.get r "schema", Row.get r "name" with
  | Value.str s, Value.str n => !likeTemp s && !likeSqlite n
  | _, _ => false

/-- `strStarts pre l` : the character list `l` starts with `pre`. -/
def strStarts : List Char → List Char → Bool
  | [], _ => true
  | _ :: _, [] => false
  | p :: ps, c :: cs => p == c && strStarts ps cs

/-- A `Value` that is a text name reserved by the engine's internal naming
convention: a string starting with "sqlite_". -/
def isSqliteName : Value → Bool
  | Value.str s => strStarts "sqlite_".toList s.toList
  | _ => false

/-!
Model of the engine's response to the index-info query: the query selects
only the column name and orders rows by the index's internal key sequence
number, which does not itself appear in the result rows.
-/

/-- Insertion of a (seqno, column-name) pair into a seqno-sorted list. -/
def insertBySeqno (p : Nat × String) : List (Nat × String) → List (Nat × String)
  | [] => [p]
  | q :: rest => if p.1 ≤ q.1 then p :: q :: rest else q :: insertBySeqno p rest

/-- Sorting of (seqno, column-name) pairs by seqno ascending. -/
def sortBySeqno : List (Nat × String) → List (Nat × String)
  | [] => []
  | p :: rest => insertBySeqno p (sortBySeqno rest)

/-- Modelled from the spec: the engine's rows for the index-info query, given
the index's key as (seqno, column-name) pairs — the projection to the column
name, ordered by seqno ascending (`order by "seqno"`), not by name. -/
def indexInfoRows (content : List (Nat × String)) : List Row :=
  (sortBySeqno content).map (fun p => [("name", Value.str p.2)])

/-!
Exception-aware translation of `getStructure`.  In TypeScript a query failure
is an exception thrown by the storage; with no try/catch in the source it
propagates out of `getStructure`.  `StorageE` is the same connection
capability with an explicit error outcome, and `getStructureE` is the same
code with the resulting `Except` plumbing, in the source's evaluation order
(per table: index list, per-index info, then table info).
-/

/-- The connection capability with explicit failure. -/
abbrev StorageE (ε : Type) : Type := Query → Except ε (List Row)

/-- `getStructure` over a fallible storage: identical query sequence and row
handling, with every storage failure short-circuiting the whole call. -/
def getStructureE {ε : Type} (storage : StorageE ε) : Except ε Structure :=
  (storage pragmaTableListQuery).bind fun tables =>
    tables.mapM fun table =>
      (storage (pragmaIndexListQuery
          { name := Row.get table "name", schema := Row.get table "schema" })).bind fun idxRows =>
        (idxRows.mapM fun index =>
          (storage (pragmaIndexInfoQuery
              { name := Row.get index "name", schema := Row.get table "schema" })).bind fun columns =>
            Except.ok
              { name := Row.get index "name"
              , unique := truthy (Row.get index "unique")
              , origin := Row.get index "origin"
              , isPartial := truthy (Row.get index "partial")
              , columns := columns }).bind fun indexes =>
          (storage (pragmaTableInfoQuery
              { name := Row.get table "name", schema := Row.get table "schema" })).bind fun colRows =>
            Except.ok
              { schema := Row.get table "schema"
              , name := Row.get table "name"
              , type := Row.get table "type"
              , withoutRowid := truthy (Row.get table "wr")
              , strict := truthy (Row.get table "strict")
              , columns := colRows.map columnOfRow
              , indexes := indexes }

/-!
Trace-instrumented translation of `getStructure`: the same code with an
accumulator recording every query handed to the storage, in issuance order.
-/

/-- `List.map` with a query log threaded left-to-right through the element
function, reflecting the strictly sequential evaluation of the source. -/
def mapLog (f : α → List Query → β × List Query) : List α → List Query → List β × List Query
  | [], log => ([], log)
  | a :: as, log =>
    let bl := f a log
    let rest := mapLog f as bl.2
    (bl.1 :: rest.1, rest.2)

/-- `exec` with the issued query appended to the log. -/
def execLog (storage : Storage) (query : Query) (log : List Query) : List Row × List Query :=
  (storage query, log ++ [query])

/-- `getStructure` instrumented with the query log: same storage calls, same
result, in the evaluation order of the source (within a table, the `indexes`
binding — index list, then one index-info query per index — is evaluated
before the `columns` binding's table-info query). -/
def getStructureLogged (storage : Storage) : Structure × List Query :=
  let tl := execLog storage pragmaTableListQuery []
  mapLog
    (fun table log =>
      let schema := Row.get table "schema"
      let il := execLog storage (pragmaIndexListQuery { name := Row.get table "name", schema := schema }) log
      let ixs := mapLog
        (fun index log =>
          let ii := execLog storage (pragmaIndexInfoQuery { name := Row.get index "name", schema := schema }) log
          (({ name := Row.get index "name"
            , unique := truthy (Row.get index "unique")
            , origin := Row.get index "origin"
            , isPartial := truthy (Row.get index "partial")
            , columns := ii.1 } : Index), ii.2))
        il.1 il.2
      let ti := execLog storage (pragmaTableInfoQuery { name := Row.get table "name", schema := schema }) ixs.2
      (({ schema := schema
        , name := Row.get table "name"
        , type := Row.get table "type"
        , withoutRowid := truthy (Row.get table "wr")
        , strict := truthy (Row.get table "strict")
        , columns := ti.1.map columnOfRow
        , indexes := ixs.1 } : Table), ti.2))
    tl.1 tl.2

/-- The queries issued for one table row, in the order the source issues
them: the table's index-list query, then one index-info query per returned
index, then the table's column-list (table-info) query. -/
def tableQueries (storage : Storage) (table : Row) : List Query :=
  let schema := Row.get table "schema"
  let arg : QueryArg := { name := Row.get table "name", schema := schema }
  pragmaIndexListQuery arg ::
    ((exec storage (pragmaIndexListQuery arg)).map
      (fun index => pragmaIndexInfoQuery { name := Row.get index "name", schema := schema })
     ++ [pragmaTableInfoQuery arg])

/-- Concrete rows and storages used to instantiate the theorems below. -/
def constStorage (rows : List Row) : Storage := fun _ => rows

/-- Two column rows already in name order, as the engine's `order by "name"`
would deliver them. -/
def wColRows : List Row :=
  [ [("name", Value.str "id"), ("type", Value.str "integer"), ("notnull", Value.num 0),
     ("dflt_value", Value.null), ("pk", Value.num 1)]
  , [("name", Value.str "name"), ("type", Value.str "text"), ("notnull", Value.num 1),
     ("dflt_value", Value.null), ("pk", Value.num 0)] ]

/-- A table-list row for an ordinary user table `main.t`. -/
def wTableRow : Row :=
  [("schema", Value.str "main"), ("name", Value.str "t"), ("type", Value.str "table"),
   ("wr", Value.num 0), ("strict", Value.num 1)]

/-- An index-list row for an index `i` of table `t`. -/
def wIdxRow : Row :=
  [("name", Value.str "i"), ("unique", Value.num 1), ("origin", Value.str "c"),
   ("partial", Value.num 0)]

/-- A second index-list row, for an index `j` of the same table. -/
def wIdxRow2 : Row :=
  [("name", Value.str "j"), ("unique", Value.num 0), ("origin", Value.str "c"),
   ("partial", Value.num 1)]

/-- A storage describing one table with two indexes, each with a key made of
the columns (b, a) in that seqno order. -/
def seqnoStorage : Storage := fun q =>
  if q.sql == tableListSql then [wTableRow]
  else if q.sql == indexListSql then [wIdxRow, wIdxRow2]
  else if q.sql == indexInfoSql then indexInfoRows [(0, "b"), (1, "a")]
  else []

/-- A storage that fails every query with error 7. -/
def failStorage : StorageE Nat := fun _ => Except.error 7

/-- A storage that answers every query successfully with no rows. -/
def emptyOkStorage : StorageE Nat := fun _ => Except.ok []

/-- Every query that `getStructure` issues for the table row `t` answered
successfully by the fallible storage: its index-list query, the index-info
query of every returned index, and its table-info query. -/
def tableQueriesOk {ε : Type} (storage : StorageE ε) (t : Row) : Prop :=
  (∃ idxRows, storage (pragmaIndexListQuery
      { name := Row.get t "name", schema := Row.get t "schema" }) = Except.ok idxRows ∧
    ∀ i ∈ idxRows, ∃ cols, storage (pragmaIndexInfoQuery
      { name := Row.get i "name", schema := Row.get t "schema" }) = Except.ok cols) ∧
  ∃ colRows, storage (pragmaTableInfoQuery
      { name := Row.get t "name", schema := Row.get t "schema" }) = Except.ok colRows

/-- A storage describing one table `main.t` with one index `i` over one
column, used to exhibit the query issuance order. -/
def c9Storage : Storage := fun q =>
  if q.sql == tableListSql then [wTableRow]
  else if q.sql == indexListSql then [wIdxRow]
  else if q.sql == indexInfoSql then [[("name", Value.str "a")]]
  else wColRows

/-- C1: for every deterministic storage function — two storages that give the
same rows to every query, as two calls against a fixed database do — the
describe operation `getStructure` returns deeply-equal `Structure` values:
the same table order and the same field values at every level. -/
theorem getStructure_deterministic (s1 s2 : Storage) (h : ∀ q : Query, s1 q = s2 q) :
    getStructure s1 = getStructure s2 := by
  have hs : s1 = s2 := funext h
  rw [hs]

theorem getStructure_deterministic_witness :
    getStructure (fun _ => []) = getStructure (fun _ => []) :=
  getStructure_deterministic (fun _ => []) (fun _ => []) (fun _ => rfl)

/-- C8: the per-table and per-index queries carry the table or index name and
the schema only as bound parameters in `values`; the `sql` text is one fixed
constant, independent of those inputs — they are never interpolated into it. -/
theorem queries_use_bound_params (a b : QueryArg) :
    (pragmaTableInfoQuery a).sql = (pragmaTableInfoQuery b).sql ∧
    (pragmaTableInfoQuery a).values = [a.name, a.schema] ∧
    (pragmaIndexListQuery a).sql = (pragmaIndexListQuery b).sql ∧
    (pragmaIndexListQuery a).values = [a.name, a.schema] ∧
    (pragmaIndexInfoQuery a).sql = (pragmaIndexInfoQuery b).sql ∧
    (pragmaIndexInfoQuery a).values = [a.name, a.schema] :=
  ⟨rfl, rfl, rfl, rfl, rfl, rfl⟩

/-- C4: every boolean-encoded flag field — the table's `wr` and `strict`
fields, the column's `notnull` field, the index's `unique` and partial-index
fields — is coerced with truthiness, so any nonzero encoded value (for
example 2) yields `true` exactly like 1, and 0 yields `false`. -/
theorem flag_coercion :
    (∀ (storage : Storage) (r : Row),
        (tableOfRow storage r).withoutRowid = truthy (Row.get r "wr") ∧
        (tableOfRow storage r).strict = truthy (Row.get r "strict")) ∧
    (∀ r : Row, (columnOfRow r).notNull = truthy (Row.get r "notnull")) ∧
    (∀ (storage : Storage) (schema : Value) (r : Row),
        (indexOfRow storage schema r).unique = truthy (Row.get r "unique") ∧
        (indexOfRow storage schema r).isPartial = truthy (Row.get r "partial")) ∧
    (∀ n : Int, truthy (Value.num n) = true ↔ n ≠ 0) ∧
    truthy (Value.num 2) = truthy (Value.num 1) ∧
    truthy (Value.num 2) = true ∧
    truthy (Value.num 0) = false := by
  refine ⟨fun _ _ => ⟨rfl, rfl⟩, fun _ => rfl, fun _ _ _ => ⟨rfl, rfl⟩, fun n => ?_,
    by decide, by decide, by decide⟩
  simp [truthy]

/-- C10: the flag coercion is JavaScript truthiness over the `Value` type: a
flag delivered as `null` coerces to `false`; any nonempty string — including
"0" — coerces to `true`; exactly the number 0, `null` and the empty string
coerce to `false`. -/
theorem truthiness_coercion :
    (∀ r : Row, (columnOfRow r).notNull = truthy (Row.get r "notnull")) ∧
    truthy Value.null = false ∧
    truthy (Value.str "0") = true ∧
    (∀ v : Value, truthy v = false ↔ (v = Value.null ∨ v = Value.num 0 ∨ v = Value.str "")) := by
  refine ⟨fun _ => rfl, rfl, by decide, fun v => ?_⟩
  cases v with
  | str s => simp [truthy]
  | num n => simp [truthy]
  | null => simp [truthy]

/-- C5: the primary-key ordinal field `pk` is preserved as its native integer
value, never coerced to boolean: a column row carrying ordinal `k` yields a
`Column` whose `primaryKey` is exactly the integer `k` (0 for a non-key
column, i for the i-th column of a composite key). -/
theorem primary_key_ordinal_preserved (r : Row) (k : Int)
    (h : Row.get r "pk" = Value.num k) :
    (columnOfRow r).primaryKey = Value.num k := by
  simp [columnOfRow, h]

theorem primary_key_ordinal_preserved_witness :
    (columnOfRow [("name", Value.str "colY"), ("pk", Value.num 2)]).primaryKey = Value.num 2 ∧
    (columnOfRow [("name", Value.str "other"), ("pk", Value.num 0)]).primaryKey = Value.num 0 :=
  ⟨primary_key_ordinal_preserved _ 2 (by decide), primary_key_ordinal_preserved _ 0 (by decide)⟩

theorem sortedBy_map (f : α → β) (k1 : α → Value) (k2 : β → Value)
    (hk : ∀ a, k2 (f a) = k1 a) :
    ∀ l : List α, sortedBy k2 (l.map f) = sortedBy k1 l := by
  intro l
  induction l with
  | nil => rfl
  | cons a as ih =>
    cases as with
    | nil => rfl
    | cons b bs =>
      simp only [List.map_cons] at ih ⊢
      rw [sortedBy, sortedBy, hk, hk, ih]

theorem strStarts_exists :
    ∀ (pre l : List Char), strStarts pre l = true → ∃ rest, l = pre ++ rest := by
  intro pre
  induction pre with
  | nil => exact fun l _ => ⟨l, rfl⟩
  | cons p ps ih =>
    intro l h
    cases l with
    | nil => simp [strStarts] at h
    | cons c cs =>
      simp only [strStarts, Bool.and_eq_true, beq_iff_eq] at h
      obtain ⟨hpc, hrest⟩ := h
      obtain ⟨rest, hr⟩ := ih cs hrest
      subst hpc
      exact ⟨rest, by rw [hr]; rfl⟩

theorem likeSqlite_of_starts (n : String)
    (h : strStarts "sqlite_".toList n.toList = true) : likeSqlite n = true := by
  obtain ⟨rest, hr⟩ := strStarts_exists _ _ h
  have hchars : "sqlite_".toList = ['s', 'q', 'l', 'i', 't', 'e', '_'] := rfl
  rw [hchars] at hr
  unfold likeSqlite
  rw [hr]
  show (Char.toLower 's' == 's' && Char.toLower 'q' == 'q' && Char.toLower 'l' == 'l' &&
    Char.toLower 'i' == 'i' && Char.toLower 't' == 't' && Char.toLower 'e' == 'e') = true
  decide

/-- C2: within each `Table` of `getStructure`'s result the columns appear
sorted by column name ascending — given that the storage honors the
`order by "name"` of the column-list query, the assembler keeps that order,
so declaration order never shows through. -/
theorem columns_sorted_by_name (storage : Storage)
    (h : ∀ a : QueryArg,
        sortedBy (fun r => Row.get r "name") (storage (pragmaTableInfoQuery a)) = true) :
    (getStructure storage).all (fun t => sortedBy Column.name t.columns) = true := by
  rw [List.all_eq_true]
  intro t ht
  simp only [getStructure, exec, List.mem_map] at ht
  obtain ⟨r, _, rfl⟩ := ht
  show sortedBy Column.name
      ((storage (pragmaTableInfoQuery
        { name := Row.get r "name", schema := Row.get r "schema" })).map columnOfRow) = true
  rw [sortedBy_map columnOfRow (fun row => Row.get row "name") Column.name (fun _ => rfl)]
  exact h _

set_option maxRecDepth 40000 in
theorem columns_sorted_by_name_witness :
    (getStructure (constStorage wColRows)).all
      (fun t => sortedBy Column.name t.columns) = true :=
  columns_sorted_by_name (constStorage wColRows)
    (fun a => by show sortedBy (fun r => Row.get r "name") wColRows = true; decide)

/-- C3: for every index of every table in `getStructure`'s result, the
`IndexColumn` sequence is the index-info rows ordered by the index's internal
key sequence number (`seqno`), not alphabetically — given that the storage
answers every index-info query with the seqno-ordered projection
`indexInfoRows` of that index's key (`content` gives each index's key), every
assembled `Index` carries exactly that seqno-ordered sequence. -/
theorem index_columns_seqno_order (storage : Storage)
    (content : QueryArg → List (Nat × String))
    (h : ∀ a : QueryArg, storage (pragmaIndexInfoQuery a) = indexInfoRows (content a)) :
    (getStructure storage).all (fun t => t.indexes.all (fun i =>
        i.columns == indexInfoRows (content { name := i.name, schema := t.schema }))) = true := by
  rw [List.all_eq_true]
  intro t ht
  simp only [getStructure, exec, List.mem_map] at ht
  obtain ⟨r, _, rfl⟩ := ht
  rw [List.all_eq_true]
  intro i hi
  have hidx : (tableOfRow storage r).indexes
      = (storage (pragmaIndexListQuery
          { name := Row.get r "name", schema := Row.get r "schema" })).map
          (indexOfRow storage (Row.get r "schema")) := rfl
  rw [hidx, List.mem_map] at hi
  obtain ⟨irow, _, rfl⟩ := hi
  show ((indexOfRow storage (Row.get r "schema") irow).columns
      == indexInfoRows (content
          { name := Row.get irow "name", schema := Row.get r "schema" })) = true
  rw [show (indexOfRow storage (Row.get r "schema") irow).columns
      = storage (pragmaIndexInfoQuery
          { name := Row.get irow "name", schema := Row.get r "schema" }) from rfl]
  rw [h]
  exact beq_self_eq_true _

set_option maxRecDepth 40000 in
theorem index_columns_seqno_order_witness :
    (getStructure seqnoStorage).all (fun t => t.indexes.all (fun i =>
        i.columns == indexInfoRows [(0, "b"), (1, "a")])) = true ∧
    indexInfoRows [(0, "b"), (1, "a")]
      = [[("name", Value.str "b")], [("name", Value.str "a")]] :=
  ⟨index_columns_seqno_order seqnoStorage (fun _ => [(0, "b"), (1, "a")]) (fun _ => rfl),
   by decide⟩

/-- C6: no temporary-schema object and no object carrying the engine's
reserved `sqlite_` name prefix ever appears as a `Table` in `getStructure`'s
result — given that the storage honors the `where` clause of the table-list
query, which filters both out. -/
theorem temp_and_sqlite_excluded (storage : Storage)
    (h : (storage pragmaTableListQuery).all tableListWherePasses = true) :
    (getStructure storage).all
      (fun t => !(t.schema == Value.str "temp") && !isSqliteName t.name) = true := by
  rw [List.all_eq_true]
  intro t ht
  simp only [getStructure, exec, List.mem_map] at ht
  obtain ⟨r, hr, rfl⟩ := ht
  rw [List.all_eq_true] at h
  have hp := h r hr
  show (!(Row.get r "schema" == Value.str "temp") && !isSqliteName (Row.get r "name")) = true
  unfold tableListWherePasses at hp
  cases hsv : Row.get r "schema" with
  | str s =>
    cases hnv : Row.get r "name" with
    | str n =>
      rw [hsv, hnv] at hp
      have hp' : (!likeTemp s && !likeSqlite n) = true := hp
      simp only [Bool.and_eq_true, Bool.not_eq_true'] at hp'
      obtain ⟨htemp, hsqlite⟩ := hp'
      simp only [Bool.and_eq_true, Bool.not_eq_true']
      constructor
      · show (Value.str s == Value.str "temp") = false
        by_cases hse : s = "temp"
        · subst hse; exact absurd htemp (by decide)
        · simp [hse]
      · show strStarts "sqlite_".toList n.toList = false
        cases hq : strStarts "sqlite_".toList n.toList with
        | false => rfl
        | true =>
          rw [likeSqlite_of_starts n hq] at hsqlite
          exact Bool.noConfusion hsqlite
    | num k => rw [hsv, hnv] at hp; exact Bool.noConfusion hp
    | null => rw [hsv, hnv] at hp; exact Bool.noConfusion hp
  | num m =>
    rw [hsv] at hp; exact Bool.noConfusion hp
  | null =>
    rw [hsv] at hp; exact Bool.noConfusion hp

theorem temp_and_sqlite_excluded_witness :
    (getStructure (constStorage [wTableRow])).all
      (fun t => !(t.schema == Value.str "temp") && !isSqliteName t.name) = true :=
  temp_and_sqlite_excluded (constStorage [wTableRow]) (by decide)

theorem except_bind_err {ε α β : Type} (e : ε) (g : α → Except ε β) :
    Except.bind (Except.error e) g = Except.error e := rfl

theorem except_bind_ok {ε α β : Type} (a : α) (g : α → Except ε β) :
    Except.bind (Except.ok a) g = g a := rfl

theorem mapM_of_error {ε α β : Type} (f : α → Except ε β) :
    ∀ (l : List α) (e : ε), l.mapM f = Except.error e →
      ∃ a, a ∈ l ∧ f a = Except.error e := by
  intro l
  induction l with
  | nil =>
    intro e h
    simp only [List.mapM_nil] at h
    exact absurd h (by simp [pure, Except.pure])
  | cons a as ih =>
    intro e h
    rw [List.mapM_cons] at h
    cases hfa : f a with
    | error e1 =>
      rw [hfa] at h
      have h' : (Except.error e1 : Except ε (List β)) = Except.error e := h
      cases h'
      exact ⟨a, List.mem_cons_self a as, hfa⟩
    | ok b =>
      rw [hfa] at h
      have h' : (as.mapM f).bind (fun bs => Except.ok (b :: bs)) = Except.error e := h
      cases hm : as.mapM f with
      | error e2 =>
        rw [hm, except_bind_err] at h'
        obtain ⟨a', ha', hfa'⟩ := ih e2 hm
        cases h'
        exact ⟨a', List.mem_cons_of_mem a ha', hfa'⟩
      | ok bs =>
        rw [hm, except_bind_ok] at h'
        exact Except.noConfusion h'

theorem mapM_of_ok {ε α β : Type} (f : α → Except ε β) (g : α → β)
    (hfg : ∀ a, f a = Except.ok (g a)) :
    ∀ l : List α, l.mapM f = Except.ok (l.map g) := by
  intro l
  induction l with
  | nil => simp only [List.mapM_nil, List.map_nil]; rfl
  | cons a as ih =>
    rw [List.mapM_cons, hfg, ih]
    rfl

theorem mapM_mem_ok {ε α β : Type} (f : α → Except ε β) :
    ∀ (l : List α) (bs : List β), l.mapM f = Except.ok bs →
      ∀ a ∈ l, ∃ b, f a = Except.ok b := by
  intro l
  induction l with
  | nil =>
    intro bs _ a ha
    exact absurd ha (List.not_mem_nil a)
  | cons x xs ih =>
    intro bs h a ha
    rw [List.mapM_cons] at h
    cases hfx : f x with
    | error e1 =>
      rw [hfx] at h
      have h' : (Except.error e1 : Except ε (List β)) = Except.ok bs := h
      exact Except.noConfusion h'
    | ok b =>
      rw [hfx] at h
      have h' : (xs.mapM f).bind (fun bs2 => Except.ok (b :: bs2)) = Except.ok bs := h
      cases hm : xs.mapM f with
      | error e2 =>
        rw [hm, except_bind_err] at h'
        exact Except.noConfusion h'
      | ok bs2 =>
        rcases List.mem_cons.mp ha with rfl | hmem
        · exact ⟨b, hfx⟩
        · exact ih bs2 hm a hmem

/-- C7: if any catalog query issued during a call fails, the whole call
aborts with the storage's own error, unmodified — no retry, no translation,
no partial `Structure`: (1) a failing table-list query aborts the call with
that error; (2) any error outcome is one the storage itself raised, and it
carries no structure; (3) a successful outcome requires every issued query —
the table-list query, and each returned table's index-list, per-index
index-info and table-info queries — to have succeeded, so a single failure
among them rules the success outcome out; (4) on a storage that never fails,
`getStructureE` returns exactly `getStructure`'s result. -/
theorem error_propagation :
    (∀ (ε : Type) (storage : StorageE ε) (e : ε),
        storage pragmaTableListQuery = Except.error e →
          getStructureE storage = Except.error e) ∧
    (∀ (ε : Type) (storage : StorageE ε) (e : ε),
        getStructureE storage = Except.error e →
          ∃ q : Query, storage q = Except.error e) ∧
    (∀ (ε : Type) (storage : StorageE ε) (s : Structure),
        getStructureE storage = Except.ok s →
          ∃ tables, storage pragmaTableListQuery = Except.ok tables ∧
            ∀ t ∈ tables, tableQueriesOk storage t) ∧
    (∀ (ε : Type) (storage : Storage),
        getStructureE (fun q => (Except.ok (storage q) : Except ε (List Row)))
          = Except.ok (getStructure storage)) := by
  refine ⟨?_, ?_, ?_, ?_⟩
  · intro ε storage e h
    unfold getStructureE
    rw [h, except_bind_err]
  · intro ε storage e h
    unfold getStructureE at h
    cases h0 : storage pragmaTableListQuery with
    | error e0 =>
      rw [h0, except_bind_err] at h
      cases h
      exact ⟨pragmaTableListQuery, h0⟩
    | ok tables =>
      rw [h0, except_bind_ok] at h
      obtain ⟨t, _, hft⟩ := mapM_of_error _ tables e h
      cases h1 : storage (pragmaIndexListQuery
          { name := Row.get t "name", schema := Row.get t "schema" }) with
      | error e1 =>
        rw [h1, except_bind_err] at hft
        cases hft
        exact ⟨_, h1⟩
      | ok idxRows =>
        rw [h1, except_bind_ok] at hft
        cases h2 : idxRows.mapM (fun index =>
            (storage (pragmaIndexInfoQuery
              { name := Row.get index "name", schema := Row.get t "schema" })).bind
              fun columns => Except.ok
                ({ name := Row.get index "name"
                 , unique := truthy (Row.get index "unique")
                 , origin := Row.get index "origin"
                 , isPartial := truthy (Row.get index "partial")
                 , columns := columns } : Index)) with
        | error e2 =>
          rw [h2, except_bind_err] at hft
          obtain ⟨i, _, hfi⟩ := mapM_of_error _ idxRows e2 h2
          cases hft
          cases h3 : storage (pragmaIndexInfoQuery
              { name := Row.get i "name", schema := Row.get t "schema" }) with
          | error e3 =>
            rw [h3, except_bind_err] at hfi
            cases hfi
            exact ⟨_, h3⟩
          | ok cols =>
            rw [h3, except_bind_ok] at hfi
            exact absurd hfi (by simp)
        | ok indexes =>
          rw [h2, except_bind_ok] at hft
          cases h4 : storage (pragmaTableInfoQuery
              { name := Row.get t "name", schema := Row.get t "schema" }) with
          | error e4 =>
            rw [h4, except_bind_err] at hft
            cases hft
            exact ⟨_, h4⟩
          | ok colRows =>
            rw [h4, except_bind_ok] at hft
            exact absurd hft (by simp)
  · intro ε storage s h
    unfold getStructureE at h
    cases h0 : storage pragmaTableListQuery with
    | error e0 =>
      rw [h0, except_bind_err] at h
      exact Except.noConfusion h
    | ok tables =>
      rw [h0, except_bind_ok] at h
      refine ⟨tables, rfl, ?_⟩
      intro t ht
      obtain ⟨resT, hT⟩ := mapM_mem_ok _ tables s h t ht
      cases h1 : storage (pragmaIndexListQuery
          { name := Row.get t "name", schema := Row.get t "schema" }) with
      | error e1 =>
        rw [h1, except_bind_err] at hT
        exact Except.noConfusion hT
      | ok idxRows =>
        rw [h1, except_bind_ok] at hT
        cases h2 : idxRows.mapM (fun index =>
            (storage (pragmaIndexInfoQuery
              { name := Row.get index "name", schema := Row.get t "schema" })).bind
              fun columns => Except.ok
                ({ name := Row.get index "name"
                 , unique := truthy (Row.get index "unique")
                 , origin := Row.get index "origin"
                 , isPartial := truthy (Row.get index "partial")
                 , columns := columns } : Index)) with
        | error e2 =>
          rw [h2, except_bind_err] at hT
          exact Except.noConfusion hT
        | ok indexes =>
          rw [h2, except_bind_ok] at hT
          unfold tableQueriesOk
          refine ⟨⟨idxRows, h1, fun i hi => ?_⟩, ?_⟩
          · obtain ⟨res2, h2i⟩ := mapM_mem_ok _ idxRows indexes h2 i hi
            cases h3 : storage (pragmaIndexInfoQuery
                { name := Row.get i "name", schema := Row.get t "schema" }) with
            | error e3 =>
              rw [h3, except_bind_err] at h2i
              exact Except.noConfusion h2i
            | ok cols => exact ⟨cols, rfl⟩
          · cases h4 : storage (pragmaTableInfoQuery
                { name := Row.get t "name", schema := Row.get t "schema" }) with
            | error e4 =>
              rw [h4, except_bind_err] at hT
              exact Except.noConfusion hT
            | ok colRows => exact ⟨colRows, rfl⟩
  · intro ε storage
    unfold getStructureE
    simp only [except_bind_ok]
    refine mapM_of_ok _ (tableOfRow storage) (fun t => ?_) _
    rw [mapM_of_ok _ (indexOfRow storage (Row.get t "schema")) ?hidx, except_bind_ok]
    case hidx => intro i; rfl
    rfl

theorem error_propagation_witness :
    getStructureE failStorage = Except.error 7 ∧
    (∃ q : Query, failStorage q = Except.error 7) ∧
    (∃ tables, emptyOkStorage pragmaTableListQuery = Except.ok tables ∧
       ∀ t ∈ tables, tableQueriesOk emptyOkStorage t) :=
  ⟨error_propagation.1 Nat failStorage 7 rfl,
   error_propagation.2.1 Nat failStorage 7 (error_propagation.1 Nat failStorage 7 rfl),
   error_propagation.2.2.1 Nat emptyOkStorage [] rfl⟩

theorem mapLog_spec (f : α → List Query → β × List Query) (g : α → β)
    (qs : α → List Query)
    (hf : ∀ (a : α) (log : List Query), f a log = (g a, log ++ qs a)) :
    ∀ (l : List α) (log : List Query),
      mapLog f l log = (l.map g, log ++ l.flatMap qs) := by
  intro l
  induction l with
  | nil => intro log; simp [mapLog]
  | cons a as ih =>
    intro log
    simp only [mapLog, hf, ih, List.map_cons, List.flatMap_cons, List.append_assoc]

theorem flatMap_single (f : α → Query) :
    ∀ l : List α, (l.flatMap fun a => [f a]) = l.map f := by
  intro l
  induction l with
  | nil => rfl
  | cons a as ih => simp only [List.flatMap_cons, List.map_cons, ih]; rfl

/-- C9 (amended): each `getStructure` call issues queries strictly
sequentially: first the table-list query, then for each table its index-list
query, then one index-info query per returned index, then that table's
column-list query — and the logged run computes exactly `getStructure`'s
result. -/
theorem query_order_trace (storage : Storage) :
    getStructureLogged storage
      = (getStructure storage,
         pragmaTableListQuery ::
           (storage pragmaTableListQuery).flatMap (tableQueries storage)) := by
  simp only [getStructureLogged, execLog]
  rw [mapLog_spec _ (tableOfRow storage) (tableQueries storage) ?hper]
  case hper =>
    intro t log
    rw [mapLog_spec _ (indexOfRow storage (Row.get t "schema"))
      (fun index => [pragmaIndexInfoQuery
        { name := Row.get index "name", schema := Row.get t "schema" }]) ?hidxq]
    case hidxq => intro i lg; rfl
    rw [Prod.mk.injEq]
    constructor
    · rfl
    · rw [flatMap_single]
      simp [tableQueries, exec, List.append_assoc]
  rw [Prod.mk.injEq]
  constructor
  · rfl
  · simp

set_option maxRecDepth 100000 in
/-- C9 as stated is false on the code: for a one-table, one-index database
the trace is table-list, index-list, index-info, table-info — the per-index
column query is issued before, not after, the table's column-list query. -/
theorem query_order_counterexample :
    (getStructureLogged c9Storage).2
      = [pragmaTableListQuery,
         pragmaIndexListQuery { name := Value.str "t", schema := Value.str "main" },
         pragmaIndexInfoQuery { name := Value.str "i", schema := Value.str "main" },
         pragmaTableInfoQuery { name := Value.str "t", schema := Value.str "main" }] ∧
    ¬ ((getStructureLogged c9Storage).2.indexOf
          (pragmaTableInfoQuery { name := Value.str "t", schema := Value.str "main" })
        < (getStructureLogged c9Storage).2.indexOf
          (pragmaIndexInfoQuery { name := Value.str "i", schema := Value.str "main" })) := by
  constructor
  · decide
  · decide

end SqliteStructure
